import Mathlib

/-!
# Verification of the influxdb3 write buffer core
  (`influxdb3_write/src/write_buffer/mod.rs`)

This development shallowly embeds the write-ingest and query-serving core of
the write buffer and proves/refutes the specification claims about it.

Conventions:
* Rust machine integers become `Nat`/`Int` (no overflow is relevant to the
  claims proved here); fallible Rust code returns `Except`; code that can
  panic (`expect`) returns an `Outcome` with an explicit `panics` case.
* Types owned by crates outside the analysed file (`influxdb3_wal`,
  `influxdb3_catalog`, the validator, the last-cache provider, the persister)
  are either abstracted to the fields the analysed code touches, or — where a
  claim depends on their behaviour — modelled from the specification; such
  definitions carry a doc comment starting `Modelled from the spec:`.
-/

/-! ## Basic data types (payloads of the WAL and of write results) -/

namespace influxdb_wal

/-- The `influxdb3_wal::Error` type (WAL crate, outside the analysed file):
abstracted to an error code. -/
structure Error where
  code : Nat
deriving DecidableEq, Repr

end influxdb_wal

/-- A line that failed validation (`WriteLineError`): abstracted to the line
text, its number and the error message. -/
structure WriteLineError where
  original_line : String
  line_number : Nat
  error_message : String
deriving DecidableEq, Repr

/-- A last-cache definition (`influxdb3_wal::LastCacheDefinition`), with the
fields used by the analysed code. -/
structure LastCacheDefinition where
  table_id : Nat
  name : String
  key_columns : List Nat
  value_columns : List Nat
  count : Nat
  ttl : Nat
deriving DecidableEq, Repr

/-- `influxdb3_wal::CatalogOp`, with the variants used by the analysed code;
schema ops produced by the validator are abstracted by a tag. -/
inductive CatalogOp where
  | CreateLastCache (definition : LastCacheDefinition)
  | DeleteLastCache (table_id : Nat) (table_name : String) (name : String)
  | schemaOp (tag : Nat)
deriving DecidableEq, Repr

/-- `influxdb3_wal::CatalogBatch`, as constructed by the analysed code. -/
structure CatalogBatch where
  time_ns : Int
  database_id : Nat
  database_name : String
  ops : List CatalogOp
deriving DecidableEq, Repr

/-- `influxdb3_wal::WriteBatch` (the typed row payload of a write op):
abstracted, as the analysed code only moves it around. -/
structure WriteBatch where
  database_id : Nat
  payload : Nat
deriving DecidableEq, Repr

/-- `influxdb3_wal::WalOp`: either a catalog batch or a write batch. -/
inductive WalOp where
  | Catalog (batch : CatalogBatch)
  | Write (batch : WriteBatch)
deriving DecidableEq, Repr

namespace last_cache

/-- The `last_cache::Error` type (outside the analysed file): the two error
conditions of the provider, plus an abstract catch-all. -/
inductive Error where
  | cacheAlreadyExists
  | cacheDoesNotExist
  | other (code : Nat)
deriving DecidableEq, Repr

end last_cache

/-- The `Error` enum of `write_buffer/mod.rs`, with payloads of foreign error
types abstracted to codes. -/
inductive Error where
  | ParseError (e : WriteLineError)
  | ColumnTypeMismatch (name : String) (existing : Nat) (new : Nat)
  | CatalogUpdateError (code : Nat)
  | PersisterError (code : Nat)
  | CorruptLoadState (msg : String)
  | DatabaseNameError (code : Nat)
  | TableBufferError (code : Nat)
  | LastCacheError (e : last_cache.Error)
  | DbDoesNotExist
  | TableDoesNotExist
  | ColumnDoesNotExist (name : String)
  | DeleteLastCache (code : Nat)
  | WalError (e : influxdb_wal.Error)
  | NoWriteInReadOnly
deriving DecidableEq, Repr

/-- The output of
`WriteValidator::initialize ∘ v1/v3_parse_lines_and_update_schema ∘ convert_lines_to_buffer`
(the `result` local of `write_lp`): counts, invalid lines, the typed row
batch, and the candidate catalog batch (if the schema changed). -/
structure ValidatedLines where
  line_count : Nat
  field_count : Nat
  index_count : Nat
  errors : List WriteLineError
  valid_data : WriteBatch
  catalog_updates : Option CatalogBatch
deriving DecidableEq, Repr

/-- The value returned by a successful `write_lp` (`BufferedWriteRequest`). -/
structure BufferedWriteRequest where
  db_name : String
  invalid_lines : List WriteLineError
  line_count : Nat
  field_count : Nat
  index_count : Nat
deriving DecidableEq, Repr

/-! ## The write path (`WriteBufferImpl::write_lp` / `write_lp_v3`)

The validator chain and `Wal::write_ops` live outside the analysed file; the
analysed functions only call them.  They are therefore fields of the
`WriteBufferImpl` record: a v1 parser chain, a v3 parser chain, and the WAL
submission function (deterministically mapping the submitted ops to the
outcome the caller observes). -/

/-- The parts of `WriteBufferImpl` the write path uses: the two validator
chains (`validator.rs`, outside the analysed file) and `wal.write_ops`
(`influxdb3_wal`, outside the analysed file), as opaque functions. -/
structure WriteBufferImpl where
  v1_parse : String → Except Error ValidatedLines
  v3_parse : String → Except Error ValidatedLines
  write_ops : List WalOp → Except influxdb_wal.Error Unit

/-- The `ops` vector built by `write_lp` (mod.rs lines 233–237): push the
catalog batch if present, then push the write batch. -/
def WriteBufferImpl.write_lp_ops (result : ValidatedLines) : List WalOp :=
  let ops : List WalOp := []
  let ops := match result.catalog_updates with
    | some catalog_batch => ops ++ [WalOp.Catalog catalog_batch]
    | none => ops
  ops ++ [WalOp.Write result.valid_data]

/-- The `ops` vector built by `write_lp_v3` (mod.rs lines 275–279); the Rust
code duplicates the block of `write_lp` verbatim. -/
def WriteBufferImpl.write_lp_v3_ops (result : ValidatedLines) : List WalOp :=
  let ops : List WalOp := []
  let ops := match result.catalog_updates with
    | some catalog_batch => ops ++ [WalOp.Catalog catalog_batch]
    | none => ops
  ops ++ [WalOp.Write result.valid_data]

/-- `WriteBufferImpl::write_lp` (mod.rs lines 211–253): validate (the `?`
propagates validation errors), build the ops, submit them in a single
`write_ops` call (the `?` wraps a WAL failure in `Error::WalError`), and on
success return the `BufferedWriteRequest` assembled from the validation
result. -/
def WriteBufferImpl.write_lp (self : WriteBufferImpl) (db_name : String)
    (lp : String) : Except Error BufferedWriteRequest :=
  match self.v1_parse lp with
  | .error e => .error e
  | .ok result =>
    match self.write_ops (WriteBufferImpl.write_lp_ops result) with
    | .error e => .error (Error.WalError e)
    | .ok _ =>
      .ok { db_name := db_name
            invalid_lines := result.errors
            line_count := result.line_count
            field_count := result.field_count
            index_count := result.index_count }

/-- `WriteBufferImpl::write_lp_v3` (mod.rs lines 255–295): identical to
`write_lp` except that the v3 validator chain is used. -/
def WriteBufferImpl.write_lp_v3 (self : WriteBufferImpl) (db_name : String)
    (lp : String) : Except Error BufferedWriteRequest :=
  match self.v3_parse lp with
  | .error e => .error e
  | .ok result =>
    match self.write_ops (WriteBufferImpl.write_lp_v3_ops result) with
    | .error e => .error (Error.WalError e)
    | .ok _ =>
      .ok { db_name := db_name
            invalid_lines := result.errors
            line_count := result.line_count
            field_count := result.field_count
            index_count := result.index_count }

/-! ## Query chunks (`WriteBufferImpl::get_table_chunks`, mod.rs lines 297–390) -/

/-- A persisted file entry (`ParquetFile`), with the fields the analysed code
reads. -/
structure ParquetFile where
  id : Nat
  path : String
  size_bytes : Nat
  row_count : Nat
  chunk_time : Int
  min_time : Int
  max_time : Int
deriving DecidableEq, Repr

/-- A chunk over a persisted file (`crate::chunk::ParquetChunk`), with the
fields `parquet_chunk_from_file` fills from its inputs (datafusion plumbing —
object-store handles, chunk ids — is dropped). -/
structure ParquetChunk where
  chunk_order : Int
  partition_key : String
  row_count : Nat
  min_time : Int
  max_time : Int
  location : String
  size : Nat
deriving DecidableEq, Repr

/-- `parquet_chunk_from_file` (mod.rs lines 347–390): builds a `ParquetChunk`
for the file, carrying the `chunk_order` passed by the caller, the partition
key derived from `chunk_time`, and statistics from the file entry. -/
def parquet_chunk_from_file (parquet_file : ParquetFile) (chunk_order : Int) :
    ParquetChunk :=
  { chunk_order := chunk_order
    partition_key := toString parquet_file.chunk_time
    row_count := parquet_file.row_count
    min_time := parquet_file.min_time
    max_time := parquet_file.max_time
    location := parquet_file.path
    size := parquet_file.size_bytes }

/-- A chunk returned to the query executor: either an in-memory buffer chunk
(content abstracted to its index) or a persisted-file chunk. -/
inductive QueryChunk where
  | buffer (idx : Nat) (chunk_order : Int)
  | parquet (chunk : ParquetChunk)
deriving DecidableEq, Repr

/-- The `chunk_order` carried by a query chunk. -/
def QueryChunk.chunk_order : QueryChunk → Int
  | .buffer _ o => o
  | .parquet c => c.chunk_order

/-- Whether a query chunk is an in-memory buffer chunk. -/
def QueryChunk.isBuffer : QueryChunk → Bool
  | .buffer _ _ => true
  | .parquet _ => false

/-- Modelled from the spec: `QueryableBuffer::get_table_chunks`
(`queryable_buffer.rs`, not under src/) returns the chunks over the current
in-memory partitions of the table; per the invariant of the spec that `chunk_order`
over the chunks of one query is a total order with in-memory chunks below
persisted ones (persisted chunks being numbered from the count of in-memory
chunks), the `n` buffer chunks carry orders `0 … n-1` in return order. -/
def QueryableBuffer.get_table_chunks (n : Nat) : List QueryChunk :=
  (List.range n).map (fun i => QueryChunk.buffer i (Int.ofNat i))

/-- The `for parquet_file in parquet_files` loop of `get_table_chunks`
(mod.rs lines 329–341): each file is turned into a chunk carrying the running
`chunk_order`, which starts at `chunks.len()` and is incremented once per
file. -/
def pushParquetChunks (chunks : List QueryChunk) (chunk_order : Int) :
    List ParquetFile → List QueryChunk
  | [] => chunks
  | parquet_file :: rest =>
    pushParquetChunks
      (chunks ++ [QueryChunk.parquet (parquet_chunk_from_file parquet_file chunk_order)])
      (chunk_order + 1) rest

/-- `WriteBufferImpl::get_table_chunks` (mod.rs lines 297–344) after the
db/table lookups: the in-memory chunks from the queryable buffer (here `n` of
them), then one chunk per persisted file of the table, with `chunk_order`
starting at `chunks.len()`. -/
def WriteBufferImpl.get_table_chunks (n : Nat) (parquet_files : List ParquetFile) :
    List QueryChunk :=
  let chunks := QueryableBuffer.get_table_chunks n
  pushParquetChunks chunks (Int.ofNat chunks.length) parquet_files

/-! ## The catalog (`influxdb3_catalog`, abstracted to the parts the analysed
file and its tests read) -/

/-- Column types of the line protocol (`influxdb3_wal::FieldDataType` plus the
tag and time columns). -/
inductive ColumnType where
  | tag
  | float
  | integer
  | uinteger
  | boolean
  | string
  | timestamp
deriving DecidableEq, Repr

/-- A column definition: name and type (column ids abstracted away). -/
structure ColumnDef where
  name : String
  column_type : ColumnType
deriving DecidableEq, Repr

/-- A table definition: name, ordered column schema, and the last-cache
definitions derived for the table. -/
structure TableDefinition where
  name : String
  columns : List ColumnDef
  last_caches : List LastCacheDefinition
deriving DecidableEq, Repr

/-- Number of columns of a table (`TableDefinition::num_columns`). -/
def TableDefinition.num_columns (t : TableDefinition) : Nat :=
  t.columns.length

/-- A database schema: id, name and id-keyed tables. -/
structure DatabaseSchema where
  id : Nat
  name : String
  tables : List (Nat × TableDefinition)
deriving DecidableEq, Repr

/-- `DatabaseSchema::table_definition_by_id`. -/
def DatabaseSchema.table_definition_by_id (db : DatabaseSchema) (table_id : Nat) :
    Option TableDefinition :=
  (db.tables.find? (fun p => p.1 = table_id)).map (fun p => p.2)

/-- `DatabaseSchema::table_id_to_name`. -/
def DatabaseSchema.table_id_to_name (db : DatabaseSchema) (table_id : Nat) :
    Option String :=
  (db.table_definition_by_id table_id).map (fun t => t.name)

/-- The in-memory catalog: id-keyed database schemas plus the process-wide
next db/table ids it allocates from (column-id allocation is abstracted). -/
structure Catalog where
  databases : List (Nat × DatabaseSchema)
  next_db_id : Nat
  next_table_id : Nat
deriving DecidableEq, Repr

/-- `Catalog::new`: an empty catalog. -/
def Catalog.new : Catalog :=
  { databases := [], next_db_id := 0, next_table_id := 0 }

/-- `Catalog::db_schema_by_id`. -/
def Catalog.db_schema_by_id (catalog : Catalog) (db_id : Nat) :
    Option DatabaseSchema :=
  (catalog.databases.find? (fun p => p.1 = db_id)).map (fun p => p.2)

/-- `Catalog::db_schema` (lookup by name). -/
def Catalog.db_schema (catalog : Catalog) (db_name : String) :
    Option DatabaseSchema :=
  (catalog.databases.find? (fun p => p.2.name = db_name)).map (fun p => p.2)

/-- Replace the schema stored under `db_id` (or add it if absent). -/
def Catalog.upsert_db (catalog : Catalog) (db_id : Nat) (db : DatabaseSchema) :
    Catalog :=
  if catalog.databases.any (fun p => p.1 = db_id) then
    { catalog with
      databases := catalog.databases.map (fun p => if p.1 = db_id then (db_id, db) else p) }
  else
    { catalog with databases := catalog.databases ++ [(db_id, db)] }

/-- `Catalog::add_last_cache`: record a last-cache definition on the table. -/
def Catalog.add_last_cache (catalog : Catalog) (db_id table_id : Nat)
    (info : LastCacheDefinition) : Catalog :=
  match catalog.db_schema_by_id db_id with
  | none => catalog
  | some db =>
    let tables := db.tables.map (fun p =>
      if p.1 = table_id then (p.1, { p.2 with last_caches := p.2.last_caches ++ [info] })
      else p)
    catalog.upsert_db db_id { db with tables := tables }

/-- `Catalog::delete_last_cache`: remove the named cache from the table. -/
def Catalog.delete_last_cache (catalog : Catalog) (db_id table_id : Nat)
    (name : String) : Catalog :=
  match catalog.db_schema_by_id db_id with
  | none => catalog
  | some db =>
    let tables := db.tables.map (fun p =>
      if p.1 = table_id then
        (p.1, { p.2 with last_caches := p.2.last_caches.filter (fun c => c.name ≠ name) })
      else p)
    catalog.upsert_db db_id { db with tables := tables }

/-- The last-cache definitions recorded in the catalog for `(db, table)`. -/
def Catalog.last_caches_of (catalog : Catalog) (db_id table_id : Nat) :
    List LastCacheDefinition :=
  match catalog.db_schema_by_id db_id with
  | none => []
  | some db =>
    match db.table_definition_by_id table_id with
    | none => []
    | some t => t.last_caches

/-! ## The write validator (`validator.rs`, not under src/)

Modelled from the spec: `WriteValidator` resolves or creates the database in
the catalog and, for each line, matches or creates the referenced table and
columns (§4.1).  The schema mutation is applied to the *live* catalog handle
during validation, as asserted by the in-file test
`tests::parse_lp_into_buffer` (mod.rs lines 554–579) and stated by the
`write_lp` comment "validated lines will update the in-memory catalog"
(mod.rs lines 221–222).  The line-protocol lexer is out of scope (spec §1), so
lines arrive already lexed; accept-partial/error handling and column-id
assignment are not needed by the claims and are omitted. -/

/-- A lexed v1 line: measurement (table) name, tag names, and field
names with their types.  The `time` column is implicit. -/
structure ParsedLine where
  table : String
  tags : List String
  fields : List (String × ColumnType)
deriving DecidableEq, Repr

/-- The columns referenced by a line, in catalog order: tags, then fields,
then the implicit `time` column. -/
def ParsedLine.columns (line : ParsedLine) : List ColumnDef :=
  line.tags.map (fun t => { name := t, column_type := ColumnType.tag })
    ++ line.fields.map (fun f => { name := f.1, column_type := f.2 })
    ++ [{ name := "time", column_type := ColumnType.timestamp }]

/-- Add to `cols` the columns of `new` whose names are not yet present. -/
def addMissingColumns (cols new : List ColumnDef) : List ColumnDef :=
  new.foldl (fun acc c => if acc.any (fun d => d.name = c.name) then acc else acc ++ [c])
    cols

/-- Apply one line to a database schema: extend the existing table with the
new columns of the line, or create the table (consuming `next_table_id`). -/
def applyLineToDb (db : DatabaseSchema) (next_table_id : Nat) (line : ParsedLine) :
    DatabaseSchema × Nat :=
  match db.tables.find? (fun p => p.2.name = line.table) with
  | some (tid, _) =>
    ({ db with tables := db.tables.map (fun p =>
        if p.1 = tid then (p.1, { p.2 with columns := addMissingColumns p.2.columns line.columns })
        else p) },
     next_table_id)
  | none =>
    ({ db with tables := db.tables ++
        [(next_table_id, { name := line.table, columns := line.columns, last_caches := [] })] },
     next_table_id + 1)

/-- Modelled from the spec: the validator chain
`WriteValidator::initialize(db_name, catalog, …)` followed by
`v1_parse_lines_and_update_schema(lines, …)` — resolve or create the database,
then match or create the table and columns of each line, committing the result to
the live catalog (see the section comment above). -/
def WriteValidator.v1_parse_lines_and_update_schema (catalog : Catalog)
    (db_name : String) (lines : List ParsedLine) : Catalog :=
  let (db_id, db, catalog) :=
    match catalog.databases.find? (fun p => p.2.name = db_name) with
    | some (i, d) => (i, d, catalog)
    | none =>
      (catalog.next_db_id,
       { id := catalog.next_db_id, name := db_name, tables := [] },
       { catalog with next_db_id := catalog.next_db_id + 1 })
  let (db, next_table_id) :=
    lines.foldl (fun acc line => applyLineToDb acc.1 acc.2 line)
      (db, catalog.next_table_id)
  { (catalog.upsert_db db_id db) with next_table_id := next_table_id }

/-! ## ID allocators and startup seeding (`WriteBufferImpl::new`, mod.rs
lines 136–168) -/

/-- A persisted snapshot manifest (`PersistedSnapshot`), with the fields the
analysed startup code reads; the `databases` map is not needed here. -/
structure PersistedSnapshot where
  snapshot_sequence_number : Nat
  wal_file_sequence_number : Nat
  catalog_sequence_number : Nat
  next_db_id : Nat
  next_table_id : Nat
  next_column_id : Nat
  next_file_id : Nat
deriving DecidableEq, Repr

/-- The process-wide ID allocators (`DbId`, `TableId`, `ColumnId`,
`ParquetFileId` next-id atomics), gathered into one record. -/
structure IdAllocators where
  next_db_id : Nat
  next_table_id : Nat
  next_column_id : Nat
  next_file_id : Nat
deriving DecidableEq, Repr

/-- `ParquetFileId::new()`: fetch the next file id and increment the
allocator. -/
def IdAllocators.parquetFileId_new (a : IdAllocators) : Nat × IdAllocators :=
  (a.next_file_id, { a with next_file_id := a.next_file_id + 1 })

/-- The ID-seeding prologue of `WriteBufferImpl::new` (mod.rs lines 146–165):
for each of the four allocators, `persisted_snapshots.first().map(set_next_id)`
— the first (most recent, since `Persister::load_snapshots` returns newest
first) fields `next_*_id` of that manifest overwrite the allocators; with no
snapshot the allocators are left as they were (`unwrap_or(())`). -/
def WriteBufferImpl.new_seed_ids (persisted_snapshots : List PersistedSnapshot)
    (allocators : IdAllocators) : IdAllocators :=
  let a := match persisted_snapshots.head? with
    | some s => { allocators with next_db_id := s.next_db_id }
    | none => allocators
  let a := match persisted_snapshots.head? with
    | some s => { a with next_table_id := s.next_table_id }
    | none => a
  let a := match persisted_snapshots.head? with
    | some s => { a with next_column_id := s.next_column_id }
    | none => a
  match persisted_snapshots.head? with
  | some s => { a with next_file_id := s.next_file_id }
  | none => a

/-- Modelled from the spec: persisting the drained partitions of a snapshot
(`queryable_buffer.rs` / `persister.rs`, not under src/) — each of the `k`
files written allocates its id with `ParquetFileId::new()` (§4.3 step 2,
`/{…}/{parquet_file_id}.parquet`).  Returns the allocated ids and the
allocator state afterwards. -/
def persistSnapshotFiles (allocators : IdAllocators) (k : Nat) :
    List Nat × IdAllocators :=
  match k with
  | 0 => ([], allocators)
  | k + 1 =>
    let (id, a) := allocators.parquetFileId_new
    let (ids, a) := persistSnapshotFiles a k
    (id :: ids, a)

/-- Modelled from the spec: assembling the `PersistedSnapshot` manifest at the
end of a snapshot (§4.3 step 4) — it bears the *post*-snapshot state of all ID
allocators. -/
def snapshotManifest (allocators : IdAllocators)
    (snapshot_sequence_number wal_file_sequence_number catalog_sequence_number : Nat) :
    PersistedSnapshot :=
  { snapshot_sequence_number := snapshot_sequence_number
    wal_file_sequence_number := wal_file_sequence_number
    catalog_sequence_number := catalog_sequence_number
    next_db_id := allocators.next_db_id
    next_table_id := allocators.next_table_id
    next_column_id := allocators.next_column_id
    next_file_id := allocators.next_file_id }

/-! ## Catalog persistence economy (`persister.rs` / `queryable_buffer.rs`,
not under src/; the in-file test `tests::catalog_snapshots_only_if_updated`
observes the behaviour) -/

/-- The object-store state relevant to catalog persistence: how many catalog
files exist and the catalog sequence of the newest one. -/
structure CatalogPersistState where
  catalog_files : Nat
  persisted_sequence : Nat
deriving DecidableEq, Repr

/-- Modelled from the spec: catalog persistence during a snapshot (§4.5) — a
new catalog file is uploaded under `/{host}/catalog/{sequence}.json` only if
the catalog sequence changed since the last persisted catalog; if the
sequence is unchanged, no new catalog file is written. -/
def snapshotPersistCatalog (st : CatalogPersistState) (current_sequence : Nat) :
    CatalogPersistState :=
  if current_sequence = st.persisted_sequence then st
  else { catalog_files := st.catalog_files + 1, persisted_sequence := current_sequence }

/-- `N` consecutive snapshots, all taken while the catalog sequence is
`current_sequence`. -/
def snapshotsAtSequence (st : CatalogPersistState) (current_sequence : Nat) :
    Nat → CatalogPersistState
  | 0 => st
  | n + 1 => snapshotPersistCatalog (snapshotsAtSequence st current_sequence n) current_sequence

/-! ## The last-cache manager (`LastCacheManager for WriteBufferImpl`,
mod.rs lines 444–527) -/

/-- The in-memory last-cache provider (`LastCacheProvider`, `last_cache.rs`,
not under src/): the set of caches it holds, keyed by
`(db_id, table_id, name)`; the cached rows themselves are not relevant to the
claims. -/
structure LastCacheProvider where
  caches : List (Nat × LastCacheDefinition)
deriving DecidableEq, Repr

/-- Look up the cache held for `(db_id, table_id, name)`. -/
def LastCacheProvider.lookup (provider : LastCacheProvider)
    (db_id table_id : Nat) (name : String) : Option LastCacheDefinition :=
  (provider.caches.find? (fun p =>
    p.1 = db_id ∧ p.2.table_id = table_id ∧ p.2.name = name)).map (fun p => p.2)

/-- The arguments of `LastCacheProvider::create_cache`
(`CreateCacheArguments`), with the table definition the analysed code fetched
from the catalog. -/
structure CreateCacheArguments where
  db_id : Nat
  table_id : Nat
  table_def : TableDefinition
  cache_name : Option String
  count : Option Nat
  ttl : Option Nat
  key_columns : Option (List Nat)
  value_columns : Option (List Nat)
deriving DecidableEq, Repr

/-- Modelled from the spec: the definition the provider derives from the
creation arguments (name defaulted from the table name, count/TTL given
defaults; the exact defaults are irrelevant to the claims, only that the
derivation is deterministic in the arguments). -/
def CreateCacheArguments.derivedDefinition (args : CreateCacheArguments) :
    LastCacheDefinition :=
  { table_id := args.table_id
    name := args.cache_name.getD (args.table_def.name ++ "_last_cache")
    key_columns := args.key_columns.getD []
    value_columns := args.value_columns.getD []
    count := args.count.getD 1
    ttl := args.ttl.getD 14400 }

/-- Modelled from the spec: `LastCacheProvider::create_cache`
(`last_cache.rs`, not under src/) — returns `None` and leaves the provider
unchanged if an equivalent cache already exists; errors if a cache with the
same name but a different configuration exists; otherwise creates the cache
and returns its definition (§4.6). -/
def LastCacheProvider.create_cache (provider : LastCacheProvider)
    (args : CreateCacheArguments) :
    Except last_cache.Error (Option LastCacheDefinition × LastCacheProvider) :=
  let info := args.derivedDefinition
  match provider.lookup args.db_id args.table_id info.name with
  | some existing =>
    if existing = info then .ok (none, provider)
    else .error last_cache.Error.cacheAlreadyExists
  | none => .ok (some info, { caches := provider.caches ++ [(args.db_id, info)] })

/-- Modelled from the spec: `LastCacheProvider::delete_cache`
(`last_cache.rs`, not under src/) — removes the cache, erroring if it does
not exist (§4.6). -/
def LastCacheProvider.delete_cache (provider : LastCacheProvider)
    (db_id table_id : Nat) (name : String) :
    Except last_cache.Error LastCacheProvider :=
  match provider.lookup db_id table_id name with
  | none => .error last_cache.Error.cacheDoesNotExist
  | some _ =>
    .ok { caches := provider.caches.filter (fun p =>
      ¬(p.1 = db_id ∧ p.2.table_id = table_id ∧ p.2.name = name)) }

/-- The mutable state the last-cache manager methods touch: the live catalog,
the last-cache provider, and the sequence of ops durably written to the WAL
so far. -/
structure WriteBufferState where
  catalog : Catalog
  last_cache : LastCacheProvider
  wal_ops : List WalOp
deriving DecidableEq, Repr

/-- The outcome of calling a method that may panic (`expect`), fail with an
error, or succeed. -/
inductive Outcome (α : Type) where
  | panics (msg : String)
  | err (e : Error)
  | ok (val : α)
deriving DecidableEq, Repr

/-- The full observable effect of one manager call: its outcome, the state
afterwards, and the warnings it logged (the analysed methods contain no
logging call, so this list is `[]` in every branch). -/
structure CallResult (α : Type) where
  outcome : Outcome α
  state : WriteBufferState
  logged_warnings : List String
deriving DecidableEq, Repr

/-- `LastCacheManager::create_last_cache for WriteBufferImpl`
(mod.rs lines 456–497): look up the database (else `DbDoesNotExist`) and the
table (else `TableDoesNotExist`); ask the provider to create the cache; if a
definition was created, record it in the live catalog and submit a
`CreateLastCache` catalog op through the WAL (wrapping a WAL failure in
`Error::WalError`), returning `Some(definition)`; if the provider returned
`None`, return `Ok(None)` with nothing written.  `wal_write_ops` is the
outcome the WAL gives for the submitted ops. -/
def WriteBufferImpl.create_last_cache (st : WriteBufferState)
    (wal_write_ops : List WalOp → Except influxdb_wal.Error Unit) (now_ns : Int)
    (db_id table_id : Nat) (cache_name : Option String) (count ttl : Option Nat)
    (key_columns value_columns : Option (List Nat)) :
    CallResult (Option LastCacheDefinition) :=
  match st.catalog.db_schema_by_id db_id with
  | none => { outcome := .err Error.DbDoesNotExist, state := st, logged_warnings := [] }
  | some db_schema =>
    match db_schema.table_definition_by_id table_id with
    | none => { outcome := .err Error.TableDoesNotExist, state := st, logged_warnings := [] }
    | some table_def =>
      match st.last_cache.create_cache
          { db_id := db_id, table_id := table_id, table_def := table_def
            cache_name := cache_name, count := count, ttl := ttl
            key_columns := key_columns, value_columns := value_columns } with
      | .error e => { outcome := .err (Error.LastCacheError e), state := st, logged_warnings := [] }
      | .ok (none, provider) =>
        { outcome := .ok none, state := { st with last_cache := provider }, logged_warnings := [] }
      | .ok (some info, provider) =>
        let catalog := st.catalog.add_last_cache db_id table_id info
        let add_cache_catalog_batch := WalOp.Catalog
          { time_ns := now_ns
            database_id := db_schema.id
            database_name := db_schema.name
            ops := [CatalogOp.CreateLastCache info] }
        match wal_write_ops [add_cache_catalog_batch] with
        | .error e =>
          { outcome := .err (Error.WalError e)
            state := { st with catalog := catalog, last_cache := provider }
            logged_warnings := [] }
        | .ok _ =>
          { outcome := .ok (some info)
            state := { catalog := catalog, last_cache := provider
                       wal_ops := st.wal_ops ++ [add_cache_catalog_batch] }
            logged_warnings := [] }

/-- `LastCacheManager::delete_last_cache for WriteBufferImpl`
(mod.rs lines 499–526): fetch the database schema with
`.expect("db should exist")` (panicking if absent); delete the cache from the
provider (`?` on its error) and from the live catalog; then build the
`DeleteLastCache` catalog op — whose table name is fetched with
`.expect("table exists")`, panicking if the table has no name — and submit it
through the WAL, `?`-propagating a WAL failure *after* the local deletes, so
they are not undone.  No branch logs anything. -/
def WriteBufferImpl.delete_last_cache (st : WriteBufferState)
    (wal_write_ops : List WalOp → Except influxdb_wal.Error Unit) (now_ns : Int)
    (db_id tbl_id : Nat) (cache_name : String) : CallResult Unit :=
  match st.catalog.db_schema_by_id db_id with
  | none => { outcome := .panics "db should exist", state := st, logged_warnings := [] }
  | some db_schema =>
    match st.last_cache.delete_cache db_id tbl_id cache_name with
    | .error e => { outcome := .err (Error.LastCacheError e), state := st, logged_warnings := [] }
    | .ok provider =>
      let catalog := st.catalog.delete_last_cache db_id tbl_id cache_name
      let st := { st with catalog := catalog, last_cache := provider }
      match db_schema.table_id_to_name tbl_id with
      | none => { outcome := .panics "table exists", state := st, logged_warnings := [] }
      | some table_name =>
        let op := WalOp.Catalog
          { time_ns := now_ns
            database_id := db_id
            database_name := db_schema.name
            ops := [CatalogOp.DeleteLastCache tbl_id table_name cache_name] }
        match wal_write_ops [op] with
        | .error e => { outcome := .err (Error.WalError e), state := st, logged_warnings := [] }
        | .ok _ =>
          { outcome := .ok ()
            state := { st with wal_ops := st.wal_ops ++ [op] }
            logged_warnings := [] }

/-- Modelled from the spec: the last caches present after a restart — WAL
replay feeds every logged catalog op through the `QueryableBuffer`, and
`CreateLastCache`/`DeleteLastCache` ops recreate/remove the caches (§4.6
"Durability").  The replay folds over the durably logged ops in order. -/
def replayLastCaches (ops : List WalOp) : List (Nat × LastCacheDefinition) :=
  ops.foldl (fun acc op =>
    match op with
    | WalOp.Write _ => acc
    | WalOp.Catalog batch =>
      batch.ops.foldl (fun acc cop =>
        match cop with
        | CatalogOp.CreateLastCache info => acc ++ [(batch.database_id, info)]
        | CatalogOp.DeleteLastCache table_id _ name =>
          acc.filter (fun p =>
            ¬(p.1 = batch.database_id ∧ p.2.table_id = table_id ∧ p.2.name = name))
        | CatalogOp.schemaOp _ => acc) acc) []

/-! ## Derived notions used to state the theorems -/

/-- Whether a WAL op is a catalog op. -/
def WalOp.isCatalogOp : WalOp → Bool
  | .Catalog _ => true
  | .Write _ => false

/-- Whether a WAL op is a write op. -/
def WalOp.isWriteOp : WalOp → Bool
  | .Catalog _ => false
  | .Write _ => true

/-- The persisted-file chunks produced for `files`, with `chunk_order` values
counting up from `order` — the closed form of the `get_table_chunks` loop. -/
def parquetChunksFrom (order : Int) : List ParquetFile → List QueryChunk
  | [] => []
  | f :: fs => QueryChunk.parquet (parquet_chunk_from_file f order) :: parquetChunksFrom (order + 1) fs

/-- `k` consecutive integers counting up from `o`. -/
def intRange (o : Int) : Nat → List Int
  | 0 => []
  | k + 1 => o :: intRange (o + 1) k

/-- The table names present in a database schema. -/
def DatabaseSchema.tableNames (db : DatabaseSchema) : List String :=
  db.tables.map (fun p => p.2.name)

/-- The table of the given name, if any. -/
def DatabaseSchema.findTableByName (db : DatabaseSchema) (name : String) :
    Option TableDefinition :=
  (db.tables.find? (fun p => p.2.name = name)).map (fun p => p.2)

/-- The definition `create_last_cache` derives from its arguments and the
table definition it fetched from the catalog (abbreviation used by the
theorems). -/
def createLastCacheInfo (table_def : TableDefinition) (db_id table_id : Nat)
    (cache_name : Option String) (count ttl : Option Nat)
    (key_columns value_columns : Option (List Nat)) : LastCacheDefinition :=
  CreateCacheArguments.derivedDefinition
    { db_id := db_id, table_id := table_id, table_def := table_def
      cache_name := cache_name, count := count, ttl := ttl
      key_columns := key_columns, value_columns := value_columns }

/-! # Theorems -/

/-! ## C1 — WAL failure fails the write; WAL success acknowledges it with the
validation counts -/

/-- C1: for every `write_lp` (and `write_lp_v3`) call whose validation
succeeds, if `write_ops` on the submitted ops returns an error then the call
returns `Err(Error::WalError(e))` — no `BufferedWriteRequest` is produced —
and if `write_ops` succeeds the call returns `Ok` with `invalid_lines`,
`line_count`, `field_count` and `index_count` taken from the validation
result. -/
theorem c1_write_lp_wal_error_semantics (self : WriteBufferImpl)
    (db_name lp : String) (result : ValidatedLines) :
    (self.v1_parse lp = .ok result →
      (∀ e, self.write_ops (WriteBufferImpl.write_lp_ops result) = .error e →
        self.write_lp db_name lp = .error (Error.WalError e)) ∧
      (self.write_ops (WriteBufferImpl.write_lp_ops result) = .ok () →
        self.write_lp db_name lp = .ok
          { db_name := db_name
            invalid_lines := result.errors
            line_count := result.line_count
            field_count := result.field_count
            index_count := result.index_count })) ∧
    (self.v3_parse lp = .ok result →
      (∀ e, self.write_ops (WriteBufferImpl.write_lp_v3_ops result) = .error e →
        self.write_lp_v3 db_name lp = .error (Error.WalError e)) ∧
      (self.write_ops (WriteBufferImpl.write_lp_v3_ops result) = .ok () →
        self.write_lp_v3 db_name lp = .ok
          { db_name := db_name
            invalid_lines := result.errors
            line_count := result.line_count
            field_count := result.field_count
            index_count := result.index_count })) := by
  constructor
  · intro hv
    constructor
    · intro e hw
      simp [WriteBufferImpl.write_lp, hv, hw]
    · intro hw
      simp [WriteBufferImpl.write_lp, hv, hw]
  · intro hv
    constructor
    · intro e hw
      simp [WriteBufferImpl.write_lp_v3, hv, hw]
    · intro hw
      simp [WriteBufferImpl.write_lp_v3, hv, hw]

/-- Witness for C1: a concrete validation result submitted against a WAL that
fails, and against one that succeeds. -/
theorem c1_write_lp_wal_error_semantics_witness :
    (WriteBufferImpl.write_lp
        ⟨fun _ => .ok ⟨1, 1, 0, [], ⟨0, 0⟩, none⟩,
         fun _ => .ok ⟨1, 1, 0, [], ⟨0, 0⟩, none⟩,
         fun _ => .error ⟨7⟩⟩ "foo" "cpu bar=1 10"
      = .error (Error.WalError ⟨7⟩)) ∧
    (WriteBufferImpl.write_lp
        ⟨fun _ => .ok ⟨1, 1, 0, [], ⟨0, 0⟩, none⟩,
         fun _ => .ok ⟨1, 1, 0, [], ⟨0, 0⟩, none⟩,
         fun _ => .ok ()⟩ "foo" "cpu bar=1 10"
      = .ok ⟨"foo", [], 1, 1, 0⟩) := by
  constructor
  · exact ((c1_write_lp_wal_error_semantics
      ⟨fun _ => .ok ⟨1, 1, 0, [], ⟨0, 0⟩, none⟩,
       fun _ => .ok ⟨1, 1, 0, [], ⟨0, 0⟩, none⟩,
       fun _ => .error ⟨7⟩⟩ "foo" "cpu bar=1 10" ⟨1, 1, 0, [], ⟨0, 0⟩, none⟩).1
      rfl).1 ⟨7⟩ rfl
  · exact ((c1_write_lp_wal_error_semantics
      ⟨fun _ => .ok ⟨1, 1, 0, [], ⟨0, 0⟩, none⟩,
       fun _ => .ok ⟨1, 1, 0, [], ⟨0, 0⟩, none⟩,
       fun _ => .ok ()⟩ "foo" "cpu bar=1 10" ⟨1, 1, 0, [], ⟨0, 0⟩, none⟩).1
      rfl).2 rfl

/-! ## C2 — the catalog op precedes the write op in the single submitted ops
list -/

/-- C2: whenever validation produces a catalog update, the ops list submitted
to the WAL in the single `write_ops` call of `write_lp` (and of `write_lp_v3`)
is exactly `[Catalog batch, Write data]`, so every catalog op in it is
strictly before every write op. -/
theorem c2_catalog_op_before_write_op (result : ValidatedLines)
    (catalog_batch : CatalogBatch)
    (h : result.catalog_updates = some catalog_batch) :
    WriteBufferImpl.write_lp_ops result
        = [WalOp.Catalog catalog_batch, WalOp.Write result.valid_data] ∧
    WriteBufferImpl.write_lp_v3_ops result
        = [WalOp.Catalog catalog_batch, WalOp.Write result.valid_data] ∧
    (∀ i j (op₁ op₂ : WalOp),
      (WriteBufferImpl.write_lp_ops result).get? i = some op₁ →
      (WriteBufferImpl.write_lp_ops result).get? j = some op₂ →
      op₁.isCatalogOp = true → op₂.isWriteOp = true → i < j) := by
  have hops : WriteBufferImpl.write_lp_ops result
      = [WalOp.Catalog catalog_batch, WalOp.Write result.valid_data] := by
    simp [WriteBufferImpl.write_lp_ops, h]
  have hops3 : WriteBufferImpl.write_lp_v3_ops result
      = [WalOp.Catalog catalog_batch, WalOp.Write result.valid_data] := by
    simp [WriteBufferImpl.write_lp_v3_ops, h]
  refine ⟨hops, hops3, ?_⟩
  intro i j op₁ op₂ hi hj h₁ h₂
  rw [hops] at hi hj
  match j, hj with
  | 0, hj =>
    simp only [List.get?] at hj
    cases hj
    simp [WalOp.isWriteOp] at h₂
  | 1, hj =>
    match i, hi with
    | 0, hi => omega
    | 1, hi =>
      simp only [List.get?] at hi
      cases hi
      simp [WalOp.isCatalogOp] at h₁
    | n + 2, hi => simp [List.get?] at hi
  | n + 2, hj => simp [List.get?] at hj

/-- Witness for C2: a concrete validation result carrying a catalog batch. -/
theorem c2_catalog_op_before_write_op_witness :
    WriteBufferImpl.write_lp_ops ⟨1, 1, 0, [], ⟨0, 0⟩, some ⟨5, 0, "foo", []⟩⟩
      = [WalOp.Catalog ⟨5, 0, "foo", []⟩, WalOp.Write ⟨0, 0⟩] :=
  (c2_catalog_op_before_write_op ⟨1, 1, 0, [], ⟨0, 0⟩, some ⟨5, 0, "foo", []⟩⟩
    ⟨5, 0, "foo", []⟩ rfl).1

/-! ## C9 — `write_lp` and `write_lp_v3` differ only in the parser -/

/-- C9: the ops construction of `write_lp` and of `write_lp_v3` agree on every
validation result. -/
theorem write_lp_ops_eq_v3_ops (result : ValidatedLines) :
    WriteBufferImpl.write_lp_ops result = WriteBufferImpl.write_lp_v3_ops result := by
  cases h : result.catalog_updates <;>
    simp [WriteBufferImpl.write_lp_ops, WriteBufferImpl.write_lp_v3_ops, h]

/-- C9: on every input on which the v1 and v3 validator chains produce the
same result, `write_lp` and `write_lp_v3` build identical WAL op sequences and
return identical values (hence identical durability semantics, as both submit
those ops in one `write_ops` call). -/
theorem c9_write_lp_v3_equivalence (self : WriteBufferImpl) (db_name lp : String)
    (h : self.v1_parse lp = self.v3_parse lp) :
    (∀ result : ValidatedLines,
      WriteBufferImpl.write_lp_ops result = WriteBufferImpl.write_lp_v3_ops result) ∧
    self.write_lp db_name lp = self.write_lp_v3 db_name lp := by
  refine ⟨write_lp_ops_eq_v3_ops, ?_⟩
  unfold WriteBufferImpl.write_lp WriteBufferImpl.write_lp_v3
  rw [h]
  simp only [write_lp_ops_eq_v3_ops]

/-- Witness for C9: a buffer whose two parsers agree on the input. -/
theorem c9_write_lp_v3_equivalence_witness :
    WriteBufferImpl.write_lp
        ⟨fun _ => .ok ⟨1, 1, 0, [], ⟨0, 0⟩, none⟩,
         fun _ => .ok ⟨1, 1, 0, [], ⟨0, 0⟩, none⟩,
         fun _ => .ok ()⟩ "foo" "cpu bar=1 10"
      = WriteBufferImpl.write_lp_v3
        ⟨fun _ => .ok ⟨1, 1, 0, [], ⟨0, 0⟩, none⟩,
         fun _ => .ok ⟨1, 1, 0, [], ⟨0, 0⟩, none⟩,
         fun _ => .ok ()⟩ "foo" "cpu bar=1 10" :=
  (c9_write_lp_v3_equivalence
    ⟨fun _ => .ok ⟨1, 1, 0, [], ⟨0, 0⟩, none⟩,
     fun _ => .ok ⟨1, 1, 0, [], ⟨0, 0⟩, none⟩,
     fun _ => .ok ()⟩ "foo" "cpu bar=1 10" rfl).2

/-! ## C3 — chunk orders form a total order, in-memory below persisted -/

/-- The `get_table_chunks` loop in closed form: the accumulated chunks
followed by one persisted chunk per file with counting orders. -/
theorem pushParquetChunks_eq (files : List ParquetFile) :
    ∀ (chunks : List QueryChunk) (order : Int),
      pushParquetChunks chunks order files = chunks ++ parquetChunksFrom order files := by
  induction files with
  | nil => intro chunks order; simp [pushParquetChunks, parquetChunksFrom]
  | cons f fs ih =>
    intro chunks order
    simp only [pushParquetChunks, parquetChunksFrom, ih, List.append_assoc,
      List.singleton_append]

/-- The chunk orders of the persisted chunks count up from `order`, one per
file. -/
theorem map_chunk_order_parquetChunksFrom (files : List ParquetFile) :
    ∀ order : Int,
      (parquetChunksFrom order files).map QueryChunk.chunk_order
        = intRange order files.length := by
  induction files with
  | nil => intro order; simp [parquetChunksFrom, intRange]
  | cons f fs ih =>
    intro order
    simp [parquetChunksFrom, intRange, ih, QueryChunk.chunk_order,
      parquet_chunk_from_file]

/-- Membership in `intRange`. -/
theorem mem_intRange : ∀ (k : Nat) (o x : Int), x ∈ intRange o k ↔ o ≤ x ∧ x < o + k := by
  intro k
  induction k with
  | zero => intro o x; simp [intRange]
  | succ k ih =>
    intro o x
    simp only [intRange, List.mem_cons, ih]
    omega

/-- `intRange` has no duplicates. -/
theorem nodup_intRange : ∀ (k : Nat) (o : Int), (intRange o k).Nodup := by
  intro k
  induction k with
  | zero => intro o; simp [intRange]
  | succ k ih =>
    intro o
    simp only [intRange, List.nodup_cons, mem_intRange]
    exact ⟨by omega, ih (o + 1)⟩

/-- Every chunk produced for a file is a persisted chunk of order at least the
starting order. -/
theorem mem_parquetChunksFrom : ∀ (files : List ParquetFile) (order : Int) (c : QueryChunk),
    c ∈ parquetChunksFrom order files →
    ∃ f o, c = QueryChunk.parquet (parquet_chunk_from_file f o) ∧ order ≤ o := by
  intro files
  induction files with
  | nil => intro order c h; simp [parquetChunksFrom] at h
  | cons f fs ih =>
    intro order c h
    simp only [parquetChunksFrom, List.mem_cons] at h
    rcases h with h | h
    · exact ⟨f, order, h, le_refl _⟩
    · obtain ⟨f', o, hc, ho⟩ := ih (order + 1) c h
      exact ⟨f', o, hc, by omega⟩

/-- The in-memory chunks are the buffer chunks of index and order `0 … n-1`. -/
theorem mem_queryableBuffer_chunks (n : Nat) (c : QueryChunk)
    (h : c ∈ QueryableBuffer.get_table_chunks n) :
    ∃ i, i < n ∧ c = QueryChunk.buffer i (Int.ofNat i) := by
  simp only [QueryableBuffer.get_table_chunks, List.mem_map, List.mem_range] at h
  obtain ⟨i, hi, rfl⟩ := h
  exact ⟨i, hi, rfl⟩

/-- There are `n` in-memory chunks. -/
theorem queryableBuffer_chunks_length (n : Nat) :
    (QueryableBuffer.get_table_chunks n).length = n := by
  simp [QueryableBuffer.get_table_chunks]

/-- C3: over the chunks returned for a single query, `chunk_order` is a total
order (pairwise distinct), every in-memory chunk is strictly below every
persisted chunk, and the persisted chunks are numbered starting at the count
of in-memory chunks, increasing by one per file. -/
theorem c3_chunk_order_total (n : Nat) (files : List ParquetFile) :
    ((WriteBufferImpl.get_table_chunks n files).map QueryChunk.chunk_order).Nodup ∧
    (∀ c ∈ WriteBufferImpl.get_table_chunks n files,
      ∀ d ∈ WriteBufferImpl.get_table_chunks n files,
        c.isBuffer = true → d.isBuffer = false → c.chunk_order < d.chunk_order) ∧
    WriteBufferImpl.get_table_chunks n files
      = QueryableBuffer.get_table_chunks n ++ parquetChunksFrom (Int.ofNat n) files ∧
    (parquetChunksFrom (Int.ofNat n) files).map QueryChunk.chunk_order
      = intRange (Int.ofNat n) files.length := by
  have hsplit : WriteBufferImpl.get_table_chunks n files
      = QueryableBuffer.get_table_chunks n ++ parquetChunksFrom (Int.ofNat n) files := by
    simp only [WriteBufferImpl.get_table_chunks, queryableBuffer_chunks_length,
      pushParquetChunks_eq]
  have hmap : (parquetChunksFrom (Int.ofNat n) files).map QueryChunk.chunk_order
      = intRange (Int.ofNat n) files.length :=
    map_chunk_order_parquetChunksFrom files (Int.ofNat n)
  refine ⟨?_, ?_, hsplit, hmap⟩
  · rw [hsplit, List.map_append, hmap]
    have hbuf : (QueryableBuffer.get_table_chunks n).map QueryChunk.chunk_order
        = (List.range n).map Int.ofNat := by
      simp only [QueryableBuffer.get_table_chunks, List.map_map]
      rfl
    rw [hbuf]
    refine List.Nodup.append ?_ (nodup_intRange files.length (Int.ofNat n)) ?_
    · exact List.Nodup.map (fun a b hab => Int.ofNat_inj.mp hab) (List.nodup_range n)
    · intro x hx hy
      rw [List.mem_map] at hx
      obtain ⟨i, hi, rfl⟩ := hx
      rw [List.mem_range] at hi
      rw [mem_intRange] at hy
      simp only [Int.ofNat_eq_coe] at hy
      omega
  · intro c hc d hd hcb hdb
    rw [hsplit, List.mem_append] at hc hd
    rcases hc with hc | hc
    · rcases hd with hd | hd
      · obtain ⟨j, hj, rfl⟩ := mem_queryableBuffer_chunks n d hd
        simp [QueryChunk.isBuffer] at hdb
      · obtain ⟨i, hi, rfl⟩ := mem_queryableBuffer_chunks n c hc
        obtain ⟨f, o, rfl, ho⟩ := mem_parquetChunksFrom files (Int.ofNat n) d hd
        simp only [QueryChunk.chunk_order, parquet_chunk_from_file]
        simp only [Int.ofNat_eq_coe] at ho ⊢
        omega
    · obtain ⟨f, o, rfl, ho⟩ := mem_parquetChunksFrom files (Int.ofNat n) c hc
      simp [QueryChunk.isBuffer] at hcb

/-- Witness for C3: one in-memory chunk and one persisted file. -/
theorem c3_chunk_order_total_witness :
    QueryChunk.chunk_order (QueryChunk.buffer 0 (Int.ofNat 0))
        < QueryChunk.chunk_order
            (QueryChunk.parquet (parquet_chunk_from_file ⟨0, "p", 10, 2, 0, 0, 1⟩ 1)) ∧
    ((WriteBufferImpl.get_table_chunks 1 [⟨0, "p", 10, 2, 0, 0, 1⟩]).map
        QueryChunk.chunk_order).Nodup := by
  constructor
  · exact (c3_chunk_order_total 1 [⟨0, "p", 10, 2, 0, 0, 1⟩]).2.1
      (QueryChunk.buffer 0 (Int.ofNat 0)) (by decide)
      (QueryChunk.parquet (parquet_chunk_from_file ⟨0, "p", 10, 2, 0, 0, 1⟩ 1)) (by decide)
      (by decide) (by decide)
  · exact (c3_chunk_order_total 1 [⟨0, "p", 10, 2, 0, 0, 1⟩]).1

/-! ## C5 — startup seeds the ID allocators from the most recent snapshot -/

/-- Persisting `k` files advances the file-id allocator by exactly `k`. -/
theorem persistSnapshotFiles_next_file_id :
    ∀ (k : Nat) (a : IdAllocators),
      (persistSnapshotFiles a k).2.next_file_id = a.next_file_id + k := by
  intro k
  induction k with
  | zero => intro a; rfl
  | succ k ih =>
    intro a
    simp only [persistSnapshotFiles, IdAllocators.parquetFileId_new, ih]
    omega

/-- C5: `WriteBufferImpl::new` seeds all four process-wide ID allocators from
the `next_*_id` fields of the most recent persisted snapshot; with
`next_file_id = 500`, the first `ParquetFileId` allocated after restart is
`500`, and the manifest of any later snapshot that persisted at least one
file carries a strictly greater `next_file_id`. -/
theorem c5_startup_id_seeding (snaps : List PersistedSnapshot)
    (s : PersistedSnapshot) (a₀ : IdAllocators) (h : snaps.head? = some s) :
    WriteBufferImpl.new_seed_ids snaps a₀
      = { next_db_id := s.next_db_id
          next_table_id := s.next_table_id
          next_column_id := s.next_column_id
          next_file_id := s.next_file_id } ∧
    (s.next_file_id = 500 →
      ((WriteBufferImpl.new_seed_ids snaps a₀).parquetFileId_new).1 = 500 ∧
      (∀ k ssn wsn csn, 1 ≤ k →
        500 < (snapshotManifest
          (persistSnapshotFiles (WriteBufferImpl.new_seed_ids snaps a₀) k).2
          ssn wsn csn).next_file_id)) := by
  have hseed : WriteBufferImpl.new_seed_ids snaps a₀
      = { next_db_id := s.next_db_id
          next_table_id := s.next_table_id
          next_column_id := s.next_column_id
          next_file_id := s.next_file_id } := by
    simp [WriteBufferImpl.new_seed_ids, h]
  refine ⟨hseed, ?_⟩
  intro h500
  constructor
  · rw [hseed]
    simp [IdAllocators.parquetFileId_new, h500]
  · intro k ssn wsn csn hk
    rw [hseed]
    simp only [snapshotManifest, persistSnapshotFiles_next_file_id, h500]
    omega

/-- Witness for C5: a single manifest with `next_file_id = 500`. -/
theorem c5_startup_id_seeding_witness :
    WriteBufferImpl.new_seed_ids [⟨42, 0, 0, 1, 2, 3, 500⟩] ⟨0, 0, 0, 0⟩
        = ⟨1, 2, 3, 500⟩ ∧
    ((WriteBufferImpl.new_seed_ids [⟨42, 0, 0, 1, 2, 3, 500⟩]
        ⟨0, 0, 0, 0⟩).parquetFileId_new).1 = 500 ∧
    500 < (snapshotManifest
        (persistSnapshotFiles
          (WriteBufferImpl.new_seed_ids [⟨42, 0, 0, 1, 2, 3, 500⟩] ⟨0, 0, 0, 0⟩) 1).2
        43 1 0).next_file_id := by
  have h := c5_startup_id_seeding [⟨42, 0, 0, 1, 2, 3, 500⟩] ⟨42, 0, 0, 1, 2, 3, 500⟩
    ⟨0, 0, 0, 0⟩ rfl
  exact ⟨h.1, (h.2 rfl).1, (h.2 rfl).2 1 43 1 0 (by decide)⟩

/-! ## C6 — no redundant catalog persistence -/

/-- Snapshots taken while the catalog sequence equals the persisted one leave
the persist state untouched. -/
theorem snapshotsAtSequence_fixed (st : CatalogPersistState) (seq : Nat)
    (h : seq = st.persisted_sequence) :
    ∀ N, snapshotsAtSequence st seq N = st := by
  intro N
  induction N with
  | zero => rfl
  | succ n ih =>
    simp only [snapshotsAtSequence, ih]
    simp [snapshotPersistCatalog, h]

/-- C6: while the catalog sequence does not change, no snapshot writes a new
catalog file (after `N` snapshots the catalog-file count is unchanged), and a
snapshot taken after the sequence changed writes exactly one new catalog
file. -/
theorem c6_catalog_persistence_economy (st : CatalogPersistState)
    (seq : Nat) (N : Nat) :
    (seq = st.persisted_sequence →
      (snapshotsAtSequence st seq N).catalog_files = st.catalog_files ∧
      snapshotsAtSequence st seq N = st) ∧
    (seq ≠ st.persisted_sequence →
      (snapshotPersistCatalog st seq).catalog_files = st.catalog_files + 1) := by
  constructor
  · intro h
    exact ⟨by rw [snapshotsAtSequence_fixed st seq h N], snapshotsAtSequence_fixed st seq h N⟩
  · intro h
    simp [snapshotPersistCatalog, h]

/-- Witness for C6: five unchanged snapshots keep two catalog files; a
sequence change makes it three. -/
theorem c6_catalog_persistence_economy_witness :
    (snapshotsAtSequence ⟨2, 1⟩ 1 5).catalog_files = 2 ∧
    (snapshotPersistCatalog ⟨2, 1⟩ 2).catalog_files = 3 := by
  exact ⟨((c6_catalog_persistence_economy ⟨2, 1⟩ 1 5).1 rfl).1,
    (c6_catalog_persistence_economy ⟨2, 1⟩ 2 5).2 (by decide)⟩

/-! ## Helper lemmas on the id-keyed association lists of the catalog -/

/-- Replacing the entry under key `i` (when present) makes `find?` by key `i`
return the replacement. -/
theorem find?_map_const_key {β : Type} (l : List (Nat × β)) (i : Nat) (d : β)
    (h : l.any (fun p => p.1 = i) = true) :
    (l.map (fun p => if p.1 = i then (i, d) else p)).find? (fun p => p.1 = i)
      = some (i, d) := by
  induction l with
  | nil => simp at h
  | cons q l ih =>
    by_cases hq : q.1 = i
    · simp [hq]
    · have h' : l.any (fun p => p.1 = i) = true := by
        simp only [List.any_cons, hq, decide_False, Bool.false_or] at h
        exact h
      simp [hq, ih h']

/-- Modifying the value under key `k` commutes with `find?` by key `k`. -/
theorem find?_map_modify_key {β : Type} (l : List (Nat × β)) (k : Nat) (g : β → β) :
    (l.map (fun p => if p.1 = k then (p.1, g p.2) else p)).find? (fun p => p.1 = k)
      = (l.find? (fun p => p.1 = k)).map (fun p => (p.1, g p.2)) := by
  induction l with
  | nil => simp
  | cons q l ih =>
    by_cases hq : q.1 = k
    · simp [hq]
    · simp [hq, ih]

/-- After `upsert_db`, looking the key up yields the upserted schema. -/
theorem Catalog.db_schema_by_id_upsert_self (c : Catalog) (i : Nat)
    (d : DatabaseSchema) : (c.upsert_db i d).db_schema_by_id i = some d := by
  unfold Catalog.upsert_db Catalog.db_schema_by_id
  by_cases hany : c.databases.any (fun p => p.1 = i) = true
  · simp only [hany, if_true]
    rw [find?_map_const_key c.databases i d hany]
    rfl
  · have hany' : c.databases.any (fun p => p.1 = i) = false :=
      Bool.not_eq_true _ ▸ Bool.of_not_eq_true hany
    simp only [hany', Bool.false_eq_true, if_false, List.find?_append]
    have hnone : c.databases.find? (fun p => p.1 = i) = none := by
      rw [List.find?_eq_none]
      intro x hx
      exact (List.any_eq_false.mp hany') x hx
    rw [hnone]
    simp

/-- Modifying the table under `k` commutes with the table lookup. -/
theorem DatabaseSchema.table_definition_by_id_modify (db : DatabaseSchema)
    (k : Nat) (g : TableDefinition → TableDefinition) :
    DatabaseSchema.table_definition_by_id
        { db with tables := db.tables.map (fun p => if p.1 = k then (p.1, g p.2) else p) } k
      = (db.table_definition_by_id k).map g := by
  unfold DatabaseSchema.table_definition_by_id
  rw [find?_map_modify_key]
  cases db.tables.find? (fun p => p.1 = k) <;> rfl

/-- Deleting the named cache from the catalog leaves no cache of that name on
the table. -/
theorem Catalog.last_caches_of_delete (catalog : Catalog) (db_id tbl_id : Nat)
    (name : String) :
    ∀ c ∈ (catalog.delete_last_cache db_id tbl_id name).last_caches_of db_id tbl_id,
      c.name ≠ name := by
  intro c hc
  unfold Catalog.delete_last_cache at hc
  cases hdb : catalog.db_schema_by_id db_id with
  | none =>
    rw [hdb] at hc
    unfold Catalog.last_caches_of at hc
    rw [hdb] at hc
    simp at hc
  | some db =>
    rw [hdb] at hc
    unfold Catalog.last_caches_of at hc
    rw [Catalog.db_schema_by_id_upsert_self] at hc
    have hmod := DatabaseSchema.table_definition_by_id_modify db tbl_id
      (fun x => { x with last_caches := x.last_caches.filter (fun c => c.name ≠ name) })
    cases ht : db.table_definition_by_id tbl_id with
    | none => simp only [hmod, ht, Option.map_none'] at hc; simp at hc
    | some t =>
      simp only [hmod, ht, Option.map_some'] at hc
      simp only [List.mem_filter] at hc
      exact of_decide_eq_true hc.2

/-- Recording a cache on an existing table makes it appear among the caches of
that table. -/
theorem Catalog.mem_last_caches_of_add (catalog : Catalog) (db_id table_id : Nat)
    (info : LastCacheDefinition) (d : DatabaseSchema) (t : TableDefinition)
    (hdb : catalog.db_schema_by_id db_id = some d)
    (ht : d.table_definition_by_id table_id = some t) :
    info ∈ (catalog.add_last_cache db_id table_id info).last_caches_of db_id table_id := by
  unfold Catalog.add_last_cache
  rw [hdb]
  unfold Catalog.last_caches_of
  rw [Catalog.db_schema_by_id_upsert_self]
  have hmod := DatabaseSchema.table_definition_by_id_modify d table_id
    (fun x => { x with last_caches := x.last_caches ++ [info] })
  simp only [hmod, ht, Option.map_some']
  simp

/-- After a successful provider delete, the cache is gone from the provider. -/
theorem LastCacheProvider.lookup_delete_self (provider provider' : LastCacheProvider)
    (db_id tbl_id : Nat) (name : String)
    (h : provider.delete_cache db_id tbl_id name = .ok provider') :
    provider'.lookup db_id tbl_id name = none := by
  unfold LastCacheProvider.delete_cache at h
  cases hl : provider.lookup db_id tbl_id name with
  | none => rw [hl] at h; exact absurd h (by simp)
  | some c =>
    rw [hl] at h
    injection h with h
    subst h
    unfold LastCacheProvider.lookup
    have hf : (provider.caches.filter (fun p =>
        ¬(p.1 = db_id ∧ p.2.table_id = tbl_id ∧ p.2.name = name))).find? (fun p =>
        p.1 = db_id ∧ p.2.table_id = tbl_id ∧ p.2.name = name) = none := by
      rw [List.find?_eq_none]
      intro x hx hpx
      rw [List.mem_filter] at hx
      exact (of_decide_eq_true hx.2) (of_decide_eq_true hpx)
    rw [hf]
    rfl

/-- Appending a fresh cache entry makes the provider lookup find it. -/
theorem LastCacheProvider.lookup_append_self (provider : LastCacheProvider)
    (db_id : Nat) (info : LastCacheDefinition)
    (h : provider.lookup db_id info.table_id info.name = none) :
    (LastCacheProvider.mk (provider.caches ++ [(db_id, info)])).lookup
        db_id info.table_id info.name = some info := by
  unfold LastCacheProvider.lookup at h ⊢
  rw [List.find?_append]
  have hf : provider.caches.find? (fun p =>
      p.1 = db_id ∧ p.2.table_id = info.table_id ∧ p.2.name = info.name) = none := by
    cases hfind : provider.caches.find? (fun p =>
        p.1 = db_id ∧ p.2.table_id = info.table_id ∧ p.2.name = info.name) with
    | none => rfl
    | some q => rw [hfind] at h; simp at h
  rw [hf]
  simp

/-! ## C7 — failed WAL op during last-cache delete -/

/-- C7 (amended): if the cache exists and the WAL catalog op fails,
`delete_last_cache` returns `Err(Error::WalError(e))` to its caller — it logs
nothing — and the local delete is not undone: the cache is gone from the
provider and from the live catalog, while the durable WAL op sequence is
unchanged, so WAL replay on restart (which reproduces any logged
`CreateLastCache` op) makes the cache reappear. -/
theorem c7_failed_delete_not_undone (st : WriteBufferState)
    (wal : List WalOp → Except influxdb_wal.Error Unit) (e : influxdb_wal.Error)
    (now_ns : Int) (db_id tbl_id : Nat) (cache_name : String)
    (d : DatabaseSchema) (table_name : String)
    (hdb : st.catalog.db_schema_by_id db_id = some d)
    (htn : d.table_id_to_name tbl_id = some table_name)
    (hcache : (st.last_cache.lookup db_id tbl_id cache_name).isSome = true)
    (hw : ∀ ops, wal ops = .error e) :
    (WriteBufferImpl.delete_last_cache st wal now_ns db_id tbl_id cache_name).outcome
        = .err (Error.WalError e) ∧
    (WriteBufferImpl.delete_last_cache st wal now_ns db_id tbl_id
        cache_name).state.last_cache.lookup db_id tbl_id cache_name = none ∧
    (∀ c ∈ (WriteBufferImpl.delete_last_cache st wal now_ns db_id tbl_id
        cache_name).state.catalog.last_caches_of db_id tbl_id, c.name ≠ cache_name) ∧
    (WriteBufferImpl.delete_last_cache st wal now_ns db_id tbl_id
        cache_name).state.wal_ops = st.wal_ops ∧
    replayLastCaches (WriteBufferImpl.delete_last_cache st wal now_ns db_id tbl_id
        cache_name).state.wal_ops = replayLastCaches st.wal_ops ∧
    (WriteBufferImpl.delete_last_cache st wal now_ns db_id tbl_id
        cache_name).logged_warnings = [] := by
  obtain ⟨c, hc⟩ := Option.isSome_iff_exists.mp hcache
  have hdel : st.last_cache.delete_cache db_id tbl_id cache_name
      = .ok ⟨st.last_cache.caches.filter (fun p =>
          ¬(p.1 = db_id ∧ p.2.table_id = tbl_id ∧ p.2.name = cache_name))⟩ := by
    unfold LastCacheProvider.delete_cache
    rw [hc]
  have hrun : WriteBufferImpl.delete_last_cache st wal now_ns db_id tbl_id cache_name
      = { outcome := .err (Error.WalError e)
          state := { st with
            catalog := st.catalog.delete_last_cache db_id tbl_id cache_name
            last_cache := ⟨st.last_cache.caches.filter (fun p =>
              ¬(p.1 = db_id ∧ p.2.table_id = tbl_id ∧ p.2.name = cache_name))⟩ }
          logged_warnings := [] } := by
    simp only [WriteBufferImpl.delete_last_cache, hdb, hdel, htn, hw]
  refine ⟨by rw [hrun], ?_, ?_, by rw [hrun], by rw [hrun], by rw [hrun]⟩
  · rw [hrun]
    exact LastCacheProvider.lookup_delete_self st.last_cache _ db_id tbl_id cache_name hdel
  · rw [hrun]
    exact Catalog.last_caches_of_delete st.catalog db_id tbl_id cache_name

/-- Counterexample for C7 as stated: on a concrete state where the cache
exists and the WAL op fails, `delete_last_cache` logs no warning at all — it
returns the WAL error to the caller (while the local delete indeed stands). -/
theorem c7_delete_logs_no_warning_counterexample :
    (WriteBufferImpl.delete_last_cache
        ⟨⟨[(0, ⟨0, "db", [(0, ⟨"table", [], [⟨0, "cache", [], [], 1, 14400⟩]⟩)]⟩)], 1, 1⟩,
         ⟨[(0, ⟨0, "cache", [], [], 1, 14400⟩)]⟩,
         [WalOp.Catalog ⟨0, 0, "db", [CatalogOp.CreateLastCache ⟨0, "cache", [], [], 1, 14400⟩]⟩]⟩
        (fun _ => .error ⟨7⟩) 0 0 0 "cache").logged_warnings = [] ∧
    (WriteBufferImpl.delete_last_cache
        ⟨⟨[(0, ⟨0, "db", [(0, ⟨"table", [], [⟨0, "cache", [], [], 1, 14400⟩]⟩)]⟩)], 1, 1⟩,
         ⟨[(0, ⟨0, "cache", [], [], 1, 14400⟩)]⟩,
         [WalOp.Catalog ⟨0, 0, "db", [CatalogOp.CreateLastCache ⟨0, "cache", [], [], 1, 14400⟩]⟩]⟩
        (fun _ => .error ⟨7⟩) 0 0 0 "cache").outcome = .err (Error.WalError ⟨7⟩) ∧
    (WriteBufferImpl.delete_last_cache
        ⟨⟨[(0, ⟨0, "db", [(0, ⟨"table", [], [⟨0, "cache", [], [], 1, 14400⟩]⟩)]⟩)], 1, 1⟩,
         ⟨[(0, ⟨0, "cache", [], [], 1, 14400⟩)]⟩,
         [WalOp.Catalog ⟨0, 0, "db", [CatalogOp.CreateLastCache ⟨0, "cache", [], [], 1, 14400⟩]⟩]⟩
        (fun _ => .error ⟨7⟩) 0 0 0 "cache").state.last_cache.lookup 0 0 "cache" = none := by
  exact ⟨rfl, rfl, rfl⟩

/-- Witness for C7: the amended theorem applied at the concrete state of the
counterexample. -/
theorem c7_failed_delete_not_undone_witness :
    (WriteBufferImpl.delete_last_cache
        ⟨⟨[(0, ⟨0, "db", [(0, ⟨"table", [], [⟨0, "cache", [], [], 1, 14400⟩]⟩)]⟩)], 1, 1⟩,
         ⟨[(0, ⟨0, "cache", [], [], 1, 14400⟩)]⟩,
         [WalOp.Catalog ⟨0, 0, "db", [CatalogOp.CreateLastCache ⟨0, "cache", [], [], 1, 14400⟩]⟩]⟩
        (fun _ => .error ⟨7⟩) 0 0 0 "cache").outcome = .err (Error.WalError ⟨7⟩) ∧
    (WriteBufferImpl.delete_last_cache
        ⟨⟨[(0, ⟨0, "db", [(0, ⟨"table", [], [⟨0, "cache", [], [], 1, 14400⟩]⟩)]⟩)], 1, 1⟩,
         ⟨[(0, ⟨0, "cache", [], [], 1, 14400⟩)]⟩,
         [WalOp.Catalog ⟨0, 0, "db", [CatalogOp.CreateLastCache ⟨0, "cache", [], [], 1, 14400⟩]⟩]⟩
        (fun _ => .error ⟨7⟩) 0 0 0 "cache").state.last_cache.lookup 0 0 "cache" = none ∧
    (WriteBufferImpl.delete_last_cache
        ⟨⟨[(0, ⟨0, "db", [(0, ⟨"table", [], [⟨0, "cache", [], [], 1, 14400⟩]⟩)]⟩)], 1, 1⟩,
         ⟨[(0, ⟨0, "cache", [], [], 1, 14400⟩)]⟩,
         [WalOp.Catalog ⟨0, 0, "db", [CatalogOp.CreateLastCache ⟨0, "cache", [], [], 1, 14400⟩]⟩]⟩
        (fun _ => .error ⟨7⟩) 0 0 0 "cache").state.wal_ops
      = [WalOp.Catalog ⟨0, 0, "db", [CatalogOp.CreateLastCache ⟨0, "cache", [], [], 1, 14400⟩]⟩] := by
  have h := c7_failed_delete_not_undone
    ⟨⟨[(0, ⟨0, "db", [(0, ⟨"table", [], [⟨0, "cache", [], [], 1, 14400⟩]⟩)]⟩)], 1, 1⟩,
     ⟨[(0, ⟨0, "cache", [], [], 1, 14400⟩)]⟩,
     [WalOp.Catalog ⟨0, 0, "db", [CatalogOp.CreateLastCache ⟨0, "cache", [], [], 1, 14400⟩]⟩]⟩
    (fun _ => .error ⟨7⟩) ⟨7⟩ 0 0 0 "cache"
    ⟨0, "db", [(0, ⟨"table", [], [⟨0, "cache", [], [], 1, 14400⟩]⟩)]⟩ "table"
    rfl rfl rfl (fun _ => rfl)
  exact ⟨h.1, h.2.1, h.2.2.2.1⟩

/-! ## C8 — create_last_cache: `Ok(None)` exactly on an equivalent existing
cache; otherwise the catalog op is logged through the WAL -/

/-- C8: with the database and table present, `create_last_cache` returns
`Ok(None)` exactly when an equivalent cache (the definition derived from the
given parameters) already exists — in which case nothing is written to the WAL
and the state (catalog included) is left unchanged; when no such cache exists
it asks the WAL to log a `CreateLastCache` catalog op (failures wrap into
`Error::WalError`), and on WAL success returns `Some(definition)` with the
cache in the provider, the definition in the live catalog, and the op
appended to the durable WAL — so the cache is recreated on replay. -/
theorem c8_create_last_cache_semantics (st : WriteBufferState)
    (wal : List WalOp → Except influxdb_wal.Error Unit) (now_ns : Int)
    (db_id table_id : Nat) (cache_name : Option String) (count ttl : Option Nat)
    (kc vc : Option (List Nat)) (d : DatabaseSchema) (t : TableDefinition)
    (hdb : st.catalog.db_schema_by_id db_id = some d)
    (ht : d.table_definition_by_id table_id = some t) :
    (st.last_cache.lookup db_id table_id
          (createLastCacheInfo t db_id table_id cache_name count ttl kc vc).name
        = some (createLastCacheInfo t db_id table_id cache_name count ttl kc vc) →
      (WriteBufferImpl.create_last_cache st wal now_ns db_id table_id cache_name
          count ttl kc vc).outcome = .ok none ∧
      (WriteBufferImpl.create_last_cache st wal now_ns db_id table_id cache_name
          count ttl kc vc).state = st) ∧
    ((WriteBufferImpl.create_last_cache st wal now_ns db_id table_id cache_name
          count ttl kc vc).outcome = .ok none →
      st.last_cache.lookup db_id table_id
          (createLastCacheInfo t db_id table_id cache_name count ttl kc vc).name
        = some (createLastCacheInfo t db_id table_id cache_name count ttl kc vc)) ∧
    (st.last_cache.lookup db_id table_id
          (createLastCacheInfo t db_id table_id cache_name count ttl kc vc).name = none →
      (∀ e, wal [WalOp.Catalog ⟨now_ns, d.id, d.name,
            [CatalogOp.CreateLastCache
              (createLastCacheInfo t db_id table_id cache_name count ttl kc vc)]⟩]
          = .error e →
        (WriteBufferImpl.create_last_cache st wal now_ns db_id table_id cache_name
            count ttl kc vc).outcome = .err (Error.WalError e)) ∧
      (wal [WalOp.Catalog ⟨now_ns, d.id, d.name,
            [CatalogOp.CreateLastCache
              (createLastCacheInfo t db_id table_id cache_name count ttl kc vc)]⟩]
          = .ok () →
        (WriteBufferImpl.create_last_cache st wal now_ns db_id table_id cache_name
            count ttl kc vc).outcome
          = .ok (some (createLastCacheInfo t db_id table_id cache_name count ttl kc vc)) ∧
        (WriteBufferImpl.create_last_cache st wal now_ns db_id table_id cache_name
            count ttl kc vc).state.wal_ops
          = st.wal_ops ++ [WalOp.Catalog ⟨now_ns, d.id, d.name,
              [CatalogOp.CreateLastCache
                (createLastCacheInfo t db_id table_id cache_name count ttl kc vc)]⟩] ∧
        (WriteBufferImpl.create_last_cache st wal now_ns db_id table_id cache_name
            count ttl kc vc).state.last_cache.lookup db_id table_id
            (createLastCacheInfo t db_id table_id cache_name count ttl kc vc).name
          = some (createLastCacheInfo t db_id table_id cache_name count ttl kc vc) ∧
        (createLastCacheInfo t db_id table_id cache_name count ttl kc vc)
          ∈ (WriteBufferImpl.create_last_cache st wal now_ns db_id table_id cache_name
              count ttl kc vc).state.catalog.last_caches_of db_id table_id)) := by
  refine ⟨?_, ?_, ?_⟩
  · intro hl
    have hcc : st.last_cache.create_cache
        ⟨db_id, table_id, t, cache_name, count, ttl, kc, vc⟩
        = .ok (none, st.last_cache) := by
      have hl' := hl
      unfold createLastCacheInfo at hl'
      simp only [LastCacheProvider.create_cache, hl']
      simp
    have hrun : WriteBufferImpl.create_last_cache st wal now_ns db_id table_id
        cache_name count ttl kc vc
        = { outcome := .ok none, state := { st with last_cache := st.last_cache }
            logged_warnings := [] } := by
      simp only [WriteBufferImpl.create_last_cache, hdb, ht, hcc]
    rw [hrun]
    exact ⟨rfl, rfl⟩
  · intro hout
    cases hl : st.last_cache.lookup db_id table_id
        (createLastCacheInfo t db_id table_id cache_name count ttl kc vc).name with
    | none =>
      exfalso
      have hcc : st.last_cache.create_cache
          ⟨db_id, table_id, t, cache_name, count, ttl, kc, vc⟩
          = .ok (some (createLastCacheInfo t db_id table_id cache_name count ttl kc vc),
              ⟨st.last_cache.caches
                ++ [(db_id, createLastCacheInfo t db_id table_id cache_name count ttl kc vc)]⟩) := by
        have hl' := hl
        unfold createLastCacheInfo at hl'
        simp only [LastCacheProvider.create_cache, hl']
        rfl
      cases hwal : wal [WalOp.Catalog ⟨now_ns, d.id, d.name,
          [CatalogOp.CreateLastCache
            (createLastCacheInfo t db_id table_id cache_name count ttl kc vc)]⟩] with
      | error e =>
        have hrun : (WriteBufferImpl.create_last_cache st wal now_ns db_id table_id
            cache_name count ttl kc vc).outcome = .err (Error.WalError e) := by
          simp only [WriteBufferImpl.create_last_cache, hdb, ht, hcc, hwal]
        rw [hrun] at hout
        simp at hout
      | ok u =>
        have hrun : (WriteBufferImpl.create_last_cache st wal now_ns db_id table_id
            cache_name count ttl kc vc).outcome
            = .ok (some (createLastCacheInfo t db_id table_id cache_name count ttl kc vc)) := by
          simp only [WriteBufferImpl.create_last_cache, hdb, ht, hcc, hwal]
        rw [hrun] at hout
        simp at hout
    | some existing =>
      by_cases hex : existing = createLastCacheInfo t db_id table_id cache_name count ttl kc vc
      · rw [hex]
      · exfalso
        have hcc : st.last_cache.create_cache
            ⟨db_id, table_id, t, cache_name, count, ttl, kc, vc⟩
            = .error last_cache.Error.cacheAlreadyExists := by
          have hl' := hl
          have hex' := hex
          unfold createLastCacheInfo at hl' hex'
          simp only [LastCacheProvider.create_cache, hl', if_neg hex']
        have hrun : (WriteBufferImpl.create_last_cache st wal now_ns db_id table_id
            cache_name count ttl kc vc).outcome
            = .err (Error.LastCacheError last_cache.Error.cacheAlreadyExists) := by
          simp only [WriteBufferImpl.create_last_cache, hdb, ht, hcc]
        rw [hrun] at hout
        simp at hout
  · intro hl
    have hcc : st.last_cache.create_cache
        ⟨db_id, table_id, t, cache_name, count, ttl, kc, vc⟩
        = .ok (some (createLastCacheInfo t db_id table_id cache_name count ttl kc vc),
            ⟨st.last_cache.caches
              ++ [(db_id, createLastCacheInfo t db_id table_id cache_name count ttl kc vc)]⟩) := by
      have hl' := hl
      unfold createLastCacheInfo at hl'
      simp only [LastCacheProvider.create_cache, hl']
      rfl
    constructor
    · intro e hwal
      have hrun : (WriteBufferImpl.create_last_cache st wal now_ns db_id table_id
          cache_name count ttl kc vc).outcome = .err (Error.WalError e) := by
        simp only [WriteBufferImpl.create_last_cache, hdb, ht, hcc, hwal]
      exact hrun
    · intro hwal
      have hrun : WriteBufferImpl.create_last_cache st wal now_ns db_id table_id
          cache_name count ttl kc vc
          = { outcome := .ok (some (createLastCacheInfo t db_id table_id cache_name count ttl kc vc))
              state := { catalog := st.catalog.add_last_cache db_id table_id
                           (createLastCacheInfo t db_id table_id cache_name count ttl kc vc)
                         last_cache := ⟨st.last_cache.caches
                           ++ [(db_id, createLastCacheInfo t db_id table_id cache_name count ttl kc vc)]⟩
                         wal_ops := st.wal_ops ++ [WalOp.Catalog ⟨now_ns, d.id, d.name,
                           [CatalogOp.CreateLastCache
                             (createLastCacheInfo t db_id table_id cache_name count ttl kc vc)]⟩] }
              logged_warnings := [] } := by
        simp only [WriteBufferImpl.create_last_cache, hdb, ht, hcc, hwal]
      refine ⟨by rw [hrun], by rw [hrun], ?_, ?_⟩
      · rw [hrun]
        exact LastCacheProvider.lookup_append_self st.last_cache db_id
          (createLastCacheInfo t db_id table_id cache_name count ttl kc vc) hl
      · rw [hrun]
        exact Catalog.mem_last_caches_of_add st.catalog db_id table_id
          (createLastCacheInfo t db_id table_id cache_name count ttl kc vc) d t hdb ht

/-- Witness for C8: creating a cache on a fresh table logs the catalog op and
returns the definition; creating it again returns `Ok(None)` and changes
nothing. -/
theorem c8_create_last_cache_semantics_witness :
    (WriteBufferImpl.create_last_cache
        ⟨⟨[(0, ⟨0, "db", [(0, ⟨"table", [], []⟩)]⟩)], 1, 1⟩, ⟨[]⟩, []⟩
        (fun _ => .ok ()) 0 0 0 (some "cache") none none none none).outcome
      = .ok (some ⟨0, "cache", [], [], 1, 14400⟩) ∧
    (WriteBufferImpl.create_last_cache
        ⟨⟨[(0, ⟨0, "db", [(0, ⟨"table", [], []⟩)]⟩)], 1, 1⟩, ⟨[]⟩, []⟩
        (fun _ => .ok ()) 0 0 0 (some "cache") none none none none).state.wal_ops
      = [WalOp.Catalog ⟨0, 0, "db",
          [CatalogOp.CreateLastCache ⟨0, "cache", [], [], 1, 14400⟩]⟩] ∧
    (WriteBufferImpl.create_last_cache
        ⟨⟨[(0, ⟨0, "db", [(0, ⟨"table", [], [⟨0, "cache", [], [], 1, 14400⟩]⟩)]⟩)], 1, 1⟩,
         ⟨[(0, ⟨0, "cache", [], [], 1, 14400⟩)]⟩, []⟩
        (fun _ => .ok ()) 0 0 0 (some "cache") none none none none).outcome
      = .ok none ∧
    (WriteBufferImpl.create_last_cache
        ⟨⟨[(0, ⟨0, "db", [(0, ⟨"table", [], [⟨0, "cache", [], [], 1, 14400⟩]⟩)]⟩)], 1, 1⟩,
         ⟨[(0, ⟨0, "cache", [], [], 1, 14400⟩)]⟩, []⟩
        (fun _ => .ok ()) 0 0 0 (some "cache") none none none none).state
      = ⟨⟨[(0, ⟨0, "db", [(0, ⟨"table", [], [⟨0, "cache", [], [], 1, 14400⟩]⟩)]⟩)], 1, 1⟩,
         ⟨[(0, ⟨0, "cache", [], [], 1, 14400⟩)]⟩, []⟩ := by
  have h1 := c8_create_last_cache_semantics
    ⟨⟨[(0, ⟨0, "db", [(0, ⟨"table", [], []⟩)]⟩)], 1, 1⟩, ⟨[]⟩, []⟩
    (fun _ => .ok ()) 0 0 0 (some "cache") none none none none
    ⟨0, "db", [(0, ⟨"table", [], []⟩)]⟩ ⟨"table", [], []⟩ rfl rfl
  have h2 := c8_create_last_cache_semantics
    ⟨⟨[(0, ⟨0, "db", [(0, ⟨"table", [], [⟨0, "cache", [], [], 1, 14400⟩]⟩)]⟩)], 1, 1⟩,
     ⟨[(0, ⟨0, "cache", [], [], 1, 14400⟩)]⟩, []⟩
    (fun _ => .ok ()) 0 0 0 (some "cache") none none none none
    ⟨0, "db", [(0, ⟨"table", [], [⟨0, "cache", [], [], 1, 14400⟩]⟩)]⟩
    ⟨"table", [], [⟨0, "cache", [], [], 1, 14400⟩]⟩ rfl rfl
  exact ⟨((h1.2.2 rfl).2 rfl).1, ((h1.2.2 rfl).2 rfl).2.1,
    (h2.1 rfl).1, (h2.1 rfl).2⟩

/-! ## C10 — delete_last_cache panics where create_last_cache errors -/

/-- C10: called with a `db_id` absent from the catalog, `delete_last_cache`
panics with `"db should exist"` where `create_last_cache` returns
`Err(DbDoesNotExist)`; called (with the cache present in the provider) on a
table absent from the database schema, it panics with `"table exists"` where
`create_last_cache` returns `Err(TableDoesNotExist)`; and `delete_last_cache`
never returns `DbDoesNotExist` or `TableDoesNotExist` on any input. -/
theorem c10_delete_panics_where_create_errors (st : WriteBufferState)
    (wal : List WalOp → Except influxdb_wal.Error Unit) (now_ns : Int)
    (db_id tbl_id : Nat) (cache_name : String) :
    (st.catalog.db_schema_by_id db_id = none →
      (WriteBufferImpl.delete_last_cache st wal now_ns db_id tbl_id cache_name).outcome
          = .panics "db should exist" ∧
      (WriteBufferImpl.create_last_cache st wal now_ns db_id tbl_id
          (some cache_name) none none none none).outcome = .err Error.DbDoesNotExist) ∧
    (∀ d, st.catalog.db_schema_by_id db_id = some d →
      d.table_definition_by_id tbl_id = none →
      (st.last_cache.lookup db_id tbl_id cache_name).isSome = true →
      (WriteBufferImpl.delete_last_cache st wal now_ns db_id tbl_id cache_name).outcome
          = .panics "table exists" ∧
      (WriteBufferImpl.create_last_cache st wal now_ns db_id tbl_id
          (some cache_name) none none none none).outcome = .err Error.TableDoesNotExist) ∧
    (WriteBufferImpl.delete_last_cache st wal now_ns db_id tbl_id cache_name).outcome
        ≠ .err Error.DbDoesNotExist ∧
    (WriteBufferImpl.delete_last_cache st wal now_ns db_id tbl_id cache_name).outcome
        ≠ .err Error.TableDoesNotExist := by
  refine ⟨?_, ?_, ?_⟩
  · intro hdb
    constructor
    · simp only [WriteBufferImpl.delete_last_cache, hdb]
    · simp only [WriteBufferImpl.create_last_cache, hdb]
  · intro d hdb ht hcache
    obtain ⟨c, hc⟩ := Option.isSome_iff_exists.mp hcache
    have hdel : st.last_cache.delete_cache db_id tbl_id cache_name
        = .ok ⟨st.last_cache.caches.filter (fun p =>
            ¬(p.1 = db_id ∧ p.2.table_id = tbl_id ∧ p.2.name = cache_name))⟩ := by
      unfold LastCacheProvider.delete_cache
      rw [hc]
    have htn : d.table_id_to_name tbl_id = none := by
      unfold DatabaseSchema.table_id_to_name
      rw [ht]
      rfl
    constructor
    · simp only [WriteBufferImpl.delete_last_cache, hdb, hdel, htn]
    · simp only [WriteBufferImpl.create_last_cache, hdb, ht]
  · cases h1 : st.catalog.db_schema_by_id db_id with
    | none =>
      constructor <;> simp [WriteBufferImpl.delete_last_cache, h1]
    | some d =>
      cases h2 : st.last_cache.delete_cache db_id tbl_id cache_name with
      | error e2 =>
        constructor <;> simp [WriteBufferImpl.delete_last_cache, h1, h2]
      | ok provider =>
        cases h3 : d.table_id_to_name tbl_id with
        | none =>
          constructor <;> simp [WriteBufferImpl.delete_last_cache, h1, h2, h3]
        | some table_name =>
          cases h4 : wal [WalOp.Catalog ⟨now_ns, db_id, d.name,
              [CatalogOp.DeleteLastCache tbl_id table_name cache_name]⟩] with
          | error e4 =>
            constructor <;> simp [WriteBufferImpl.delete_last_cache, h1, h2, h3, h4]
          | ok u =>
            constructor <;> simp [WriteBufferImpl.delete_last_cache, h1, h2, h3, h4]

/-- Witness for C10: a missing database makes delete panic and create error;
a present database with a missing table makes delete panic at the table name
and create return the table error. -/
theorem c10_delete_panics_where_create_errors_witness :
    (WriteBufferImpl.delete_last_cache ⟨Catalog.new, ⟨[]⟩, []⟩
        (fun _ => .ok ()) 0 0 0 "cache").outcome = .panics "db should exist" ∧
    (WriteBufferImpl.create_last_cache ⟨Catalog.new, ⟨[]⟩, []⟩
        (fun _ => .ok ()) 0 0 0 (some "cache") none none none none).outcome
      = .err Error.DbDoesNotExist ∧
    (WriteBufferImpl.delete_last_cache
        ⟨⟨[(0, ⟨0, "db", []⟩)], 1, 0⟩, ⟨[(0, ⟨0, "cache", [], [], 1, 14400⟩)]⟩, []⟩
        (fun _ => .ok ()) 0 0 0 "cache").outcome = .panics "table exists" ∧
    (WriteBufferImpl.create_last_cache
        ⟨⟨[(0, ⟨0, "db", []⟩)], 1, 0⟩, ⟨[(0, ⟨0, "cache", [], [], 1, 14400⟩)]⟩, []⟩
        (fun _ => .ok ()) 0 0 0 (some "cache") none none none none).outcome
      = .err Error.TableDoesNotExist := by
  have h1 := c10_delete_panics_where_create_errors ⟨Catalog.new, ⟨[]⟩, []⟩
    (fun _ => .ok ()) 0 0 0 "cache"
  have h2 := c10_delete_panics_where_create_errors
    ⟨⟨[(0, ⟨0, "db", []⟩)], 1, 0⟩, ⟨[(0, ⟨0, "cache", [], [], 1, 14400⟩)]⟩, []⟩
    (fun _ => .ok ()) 0 0 0 "cache"
  exact ⟨(h1.1 rfl).1, (h1.1 rfl).2,
    (h2.2.1 ⟨0, "db", []⟩ rfl rfl rfl).1, (h2.2.1 ⟨0, "db", []⟩ rfl rfl rfl).2⟩

/-! ## C4 — the validator commits the schema change to the live catalog -/

/-- Modifying the columns of one table changes no table name. -/
theorem map_name_modify_columns (l : List (Nat × TableDefinition)) (tid : Nat)
    (cols : List ColumnDef) :
    (l.map (fun p =>
        if p.1 = tid then (p.1, { p.2 with columns := addMissingColumns p.2.columns cols })
        else p)).map (fun p => p.2.name)
      = l.map (fun p => p.2.name) := by
  induction l with
  | nil => rfl
  | cons q l ih => by_cases hq : q.1 = tid <;> simp [hq, ih]

/-- After applying a line, its table name is present in the schema. -/
theorem mem_table_applyLineToDb (db : DatabaseSchema) (k : Nat) (line : ParsedLine) :
    line.table ∈ (applyLineToDb db k line).1.tableNames := by
  unfold applyLineToDb
  cases hf : db.tables.find? (fun p => p.2.name = line.table) with
  | some p =>
    obtain ⟨tid, t⟩ := p
    simp only [hf, DatabaseSchema.tableNames]
    rw [map_name_modify_columns]
    have hp := List.find?_some hf
    have htn : t.name = line.table := by simpa using hp
    exact htn ▸ List.mem_map_of_mem (fun p => p.2.name) (List.mem_of_find?_eq_some hf)
  | none =>
    simp only [hf, DatabaseSchema.tableNames, List.map_append]
    exact List.mem_append_right _ (by simp)

/-- Applying a line removes no table name. -/
theorem mono_applyLineToDb (db : DatabaseSchema) (k : Nat) (line : ParsedLine)
    (nm : String) (h : nm ∈ db.tableNames) :
    nm ∈ (applyLineToDb db k line).1.tableNames := by
  unfold applyLineToDb
  cases hf : db.tables.find? (fun p => p.2.name = line.table) with
  | some p =>
    obtain ⟨tid, t⟩ := p
    simp only [hf, DatabaseSchema.tableNames]
    rw [map_name_modify_columns]
    simpa [DatabaseSchema.tableNames] using h
  | none =>
    simp only [hf, DatabaseSchema.tableNames, List.map_append]
    exact List.mem_append_left _ (by simpa [DatabaseSchema.tableNames] using h)

/-- Applying a line keeps the database id and name. -/
theorem applyLineToDb_id_name (db : DatabaseSchema) (k : Nat) (line : ParsedLine) :
    (applyLineToDb db k line).1.id = db.id ∧ (applyLineToDb db k line).1.name = db.name := by
  unfold applyLineToDb
  cases hf : db.tables.find? (fun p => p.2.name = line.table) with
  | some p => obtain ⟨tid, t⟩ := p; simp [hf]
  | none => simp [hf]

/-- The validator fold removes no table name. -/
theorem fold_lines_mono (lines : List ParsedLine) :
    ∀ (db : DatabaseSchema) (k : Nat) (nm : String), nm ∈ db.tableNames →
      nm ∈ (lines.foldl (fun acc line => applyLineToDb acc.1 acc.2 line) (db, k)).1.tableNames := by
  induction lines with
  | nil => intro db k nm h; exact h
  | cons line rest ih =>
    intro db k nm h
    simp only [List.foldl_cons]
    exact ih (applyLineToDb db k line).1 (applyLineToDb db k line).2 nm
      (mono_applyLineToDb db k line nm h)

/-- After the validator fold, every processed line has its table in the
schema. -/
theorem fold_lines_mem (lines : List ParsedLine) :
    ∀ (db : DatabaseSchema) (k : Nat) (line : ParsedLine), line ∈ lines →
      line.table ∈ (lines.foldl (fun acc line => applyLineToDb acc.1 acc.2 line) (db, k)).1.tableNames := by
  induction lines with
  | nil => intro _ _ _ h; cases h
  | cons l rest ih =>
    intro db k line h
    rcases List.mem_cons.mp h with rfl | h
    · simp only [List.foldl_cons]
      exact fold_lines_mono rest (applyLineToDb db k line).1 (applyLineToDb db k line).2
        line.table (mem_table_applyLineToDb db k line)
    · simp only [List.foldl_cons]
      exact ih (applyLineToDb db k l).1 (applyLineToDb db k l).2 line h

/-- The validator fold keeps the database id and name. -/
theorem fold_lines_id_name (lines : List ParsedLine) :
    ∀ (db : DatabaseSchema) (k : Nat),
      (lines.foldl (fun acc line => applyLineToDb acc.1 acc.2 line) (db, k)).1.id = db.id ∧
      (lines.foldl (fun acc line => applyLineToDb acc.1 acc.2 line) (db, k)).1.name = db.name := by
  induction lines with
  | nil => intro db k; exact ⟨rfl, rfl⟩
  | cons line rest ih =>
    intro db k
    simp only [List.foldl_cons]
    obtain ⟨h1, h2⟩ := ih (applyLineToDb db k line).1 (applyLineToDb db k line).2
    obtain ⟨g1, g2⟩ := applyLineToDb_id_name db k line
    exact ⟨h1.trans g1, h2.trans g2⟩

/-- Setting `next_table_id` does not change database lookups. -/
theorem db_schema_by_id_set_next_table_id (c : Catalog) (nt : Nat) (i : Nat) :
    (({ c with next_table_id := nt } : Catalog)).db_schema_by_id i
      = c.db_schema_by_id i := rfl

/-- C4 (amended): the validator itself commits the catalog mutation to the
live in-memory catalog during validation — after `initialize` and
`v1_parse_lines_and_update_schema` alone (no WAL flush, no notify), the
written database exists in the live catalog under its id with the requested
name, and every written table is present in it; the `CatalogBatch` the
validator also returns exists so the same change is re-applied from the WAL
on restart. -/
theorem c4_validator_commits_to_live_catalog (catalog : Catalog)
    (db_name : String) (lines : List ParsedLine) :
    ∃ (db_id : Nat) (db : DatabaseSchema),
      (WriteValidator.v1_parse_lines_and_update_schema catalog db_name lines).db_schema_by_id
          db_id = some db ∧
      db.name = db_name ∧
      ∀ line ∈ lines, line.table ∈ db.tableNames := by
  unfold WriteValidator.v1_parse_lines_and_update_schema
  cases hf : catalog.databases.find? (fun p => p.2.name = db_name) with
  | some p =>
    obtain ⟨i, d0⟩ := p
    simp only [hf]
    rcases hfold : lines.foldl (fun acc line => applyLineToDb acc.1 acc.2 line)
        (d0, catalog.next_table_id) with ⟨dbF, nt⟩
    simp only [hfold]
    refine ⟨i, dbF, ?_, ?_, ?_⟩
    · rw [db_schema_by_id_set_next_table_id]
      exact Catalog.db_schema_by_id_upsert_self catalog i dbF
    · have h := (fold_lines_id_name lines d0 catalog.next_table_id).2
      rw [hfold] at h
      have hp := List.find?_some hf
      have hdn : d0.name = db_name := by simpa using hp
      exact h.trans hdn
    · intro line hline
      have h := fold_lines_mem lines d0 catalog.next_table_id line hline
      rw [hfold] at h
      exact h
  | none =>
    simp only [hf]
    rcases hfold : lines.foldl (fun acc line => applyLineToDb acc.1 acc.2 line)
        (⟨catalog.next_db_id, db_name, []⟩,
         ({ catalog with next_db_id := catalog.next_db_id + 1 } : Catalog).next_table_id)
        with ⟨dbF, nt⟩
    simp only [hfold]
    refine ⟨catalog.next_db_id, dbF, ?_, ?_, ?_⟩
    · rw [db_schema_by_id_set_next_table_id]
      exact Catalog.db_schema_by_id_upsert_self _ catalog.next_db_id dbF
    · have h := (fold_lines_id_name lines ⟨catalog.next_db_id, db_name, []⟩
        ({ catalog with next_db_id := catalog.next_db_id + 1 } : Catalog).next_table_id).2
      rw [hfold] at h
      exact h
    · intro line hline
      have h := fold_lines_mem lines ⟨catalog.next_db_id, db_name, []⟩
        ({ catalog with next_db_id := catalog.next_db_id + 1 } : Catalog).next_table_id
        line hline
      rw [hfold] at h
      exact h

/-- Counterexample for C4 as stated: the input of the in-file test
`tests::parse_lp_into_buffer` — `cpu,region=west user=23.2 100` and
`foo f1=1i` validated against a fresh catalog with no WAL flush or notify —
leaves the live catalog changed: database `0` now exists with two tables,
`cpu` with 3 columns and `foo` with 2 (exactly what the test asserts). -/
theorem c4_validation_alone_changes_catalog_counterexample :
    WriteValidator.v1_parse_lines_and_update_schema Catalog.new "foo"
        [⟨"cpu", ["region"], [("user", ColumnType.float)]⟩,
         ⟨"foo", [], [("f1", ColumnType.integer)]⟩]
      ≠ Catalog.new ∧
    ((WriteValidator.v1_parse_lines_and_update_schema Catalog.new "foo"
        [⟨"cpu", ["region"], [("user", ColumnType.float)]⟩,
         ⟨"foo", [], [("f1", ColumnType.integer)]⟩]).db_schema_by_id 0).map
        (fun db => db.tables.length) = some 2 ∧
    ((WriteValidator.v1_parse_lines_and_update_schema Catalog.new "foo"
        [⟨"cpu", ["region"], [("user", ColumnType.float)]⟩,
         ⟨"foo", [], [("f1", ColumnType.integer)]⟩]).db_schema_by_id 0).map
        (fun db => (db.table_definition_by_id 0).map TableDefinition.num_columns)
      = some (some 3) ∧
    ((WriteValidator.v1_parse_lines_and_update_schema Catalog.new "foo"
        [⟨"cpu", ["region"], [("user", ColumnType.float)]⟩,
         ⟨"foo", [], [("f1", ColumnType.integer)]⟩]).db_schema_by_id 0).map
        (fun db => (db.table_definition_by_id 1).map TableDefinition.num_columns)
      = some (some 2) := by
  exact ⟨by decide, by decide, by decide, by decide⟩

/-- Witness for C4: the amended theorem applied at the input of the test. -/
theorem c4_validator_commits_to_live_catalog_witness :
    ∃ (db_id : Nat) (db : DatabaseSchema),
      (WriteValidator.v1_parse_lines_and_update_schema Catalog.new "foo"
          [⟨"cpu", ["region"], [("user", ColumnType.float)]⟩,
           ⟨"foo", [], [("f1", ColumnType.integer)]⟩]).db_schema_by_id db_id = some db ∧
      db.name = "foo" ∧ "cpu" ∈ db.tableNames ∧ "foo" ∈ db.tableNames := by
  obtain ⟨i, db, h1, h2, h3⟩ := c4_validator_commits_to_live_catalog Catalog.new "foo"
    [⟨"cpu", ["region"], [("user", ColumnType.float)]⟩,
     ⟨"foo", [], [("f1", ColumnType.integer)]⟩]
  exact ⟨i, db, h1, h2,
    h3 ⟨"cpu", ["region"], [("user", ColumnType.float)]⟩ (by simp),
    h3 ⟨"foo", [], [("f1", ColumnType.integer)]⟩ (by simp)⟩
